/-
Verification of the swerve_controller core
(ikh-innovation/ros_controllers, swerve_controller/swerve_controller.h).

The repository ships the controller header `swerve_controller.h`; the
method bodies (swerve_controller.cpp) and the helper headers
`swerve_controller/odometry.h` and `swerve_controller/speed_limiter.h`
are not among the sources, so the behaviour of those methods is modelled
from the specification document, as indicated on each definition.
Angles, speeds and times are modelled as real numbers.
-/
import Mathlib

namespace SwerveController

open Classical

noncomputable section

/-! ## Data model (from swerve_controller.h) -/

/-- CommandTwist struct, swerve_controller.h lines 114-122:
`{ros::Time stamp; double lin_x; double lin_y; double ang;}`. -/
structure CommandTwist where
  stamp : ℝ
  lin_x : ℝ
  lin_y : ℝ
  ang : ℝ

/-- Default constructor of CommandTwist (header line 121):
`CommandTwist() : lin_x(0.0), lin_y(0.0), ang(0.0), stamp(0.0) {}`. -/
def CommandTwist.defaultCtor : CommandTwist :=
  { stamp := 0, lin_x := 0, lin_y := 0, ang := 0 }

/-- DynamicParams struct, swerve_controller.h lines 190-214. -/
structure DynamicParams where
  update : Bool
  enable_odom_tf : Bool
  angle_threshold : ℝ
  wheel_radius : ℝ

/-- Default constructor of DynamicParams (header lines 197-201):
`DynamicParams() : angle_threshold(0.5), enable_odom_tf(true), wheel_radius(0.135) {}`.
The `update` member is left uninitialized by the constructor, hence it is a
parameter here. -/
def DynamicParams.defaultCtor (u : Bool) : DynamicParams :=
  { update := u, enable_odom_tf := true, angle_threshold := 0.5, wheel_radius := 0.135 }

/-- Per-wheel clipping indicators, swerve_controller.h lines 180-183:
`int lf_clipped_ {0}; int rf_clipped_ {0}; int lh_clipped_ {0}; int rh_clipped_ {0};`. -/
structure ClipFlags where
  lf_clipped : ℤ
  rf_clipped : ℤ
  lh_clipped : ℤ
  rh_clipped : ℤ

/-- In-class member initializers of the clipping indicators (all `{0}`). -/
def ClipFlags.init : ClipFlags :=
  { lf_clipped := 0, rf_clipped := 0, lh_clipped := 0, rh_clipped := 0 }

/-- State of the dynamic-parameter handoff: the parameter values currently in
use by the control loop, and the latest value published into the
`realtime_tools::RealtimeBuffer<DynamicParams> dynamic_params_` slot.
Both start as default-constructed DynamicParams. -/
structure ParamState where
  active : DynamicParams
  buffer : DynamicParams

/-- Initial parameter state: both the working copy and the realtime buffer
hold default-constructed DynamicParams values (the `update` bits are
indeterminate, hence parameters). -/
def ParamState.init (u1 u2 : Bool) : ParamState :=
  { active := DynamicParams.defaultCtor u1, buffer := DynamicParams.defaultCtor u2 }

/-- Modelled from the spec: `updateDynamicParams` (declared at
swerve_controller.h line 255, body not among the sources) applies the
latest buffered parameter set atomically at the start of a cycle:
the working copy becomes the buffered snapshot. -/
def updateDynamicParams (s : ParamState) : ParamState :=
  { s with active := s.buffer }

/-- Modelled from the spec: the reconfiguration callback publishes a new
parameter set into the realtime buffer; the working copy is untouched
until the next cycle boundary. -/
def pushDynamicParams (p : DynamicParams) (s : ParamState) : ParamState :=
  { s with buffer := p }

/-! ## Steering resolution (minimize-turn) -/

/-- Wrap an angle into the half-open interval `[-π, π)`. -/
def wrapAngle (θ : ℝ) : ℝ :=
  θ - 2 * Real.pi * ⌊(θ + Real.pi) / (2 * Real.pi)⌋

/-- Result of the minimize-turn resolution for one wheel. -/
structure TurnResolution where
  target : ℝ
  speed : ℝ
  inverted : Bool

/-- Modelled from the spec: `minimizeTurn` (declared at
swerve_controller.h line 234, body not among the sources). It compares the
angular distance from the current steering angle to the raw target angle
with the angular distance to the raw angle's 180-degree opposite; if the
opposite route combined with inverting the wheel spin direction yields a
strictly smaller absolute rotation, it is chosen, flipping the sign of the
wheel speed. The returned target is the current angle plus the chosen
(wrapped) rotation. -/
def minimizeTurn (new_angle current_angle speed : ℝ) : TurnResolution :=
  let d1 := wrapAngle (new_angle - current_angle)
  let d2 := wrapAngle (new_angle + Real.pi - current_angle)
  if |d2| < |d1| then
    { target := current_angle + d2, speed := -speed, inverted := true }
  else
    { target := current_angle + d1, speed := speed, inverted := false }

/-! ## Steering clip and error check -/

/-- Result of the clip step for one steering joint. -/
structure ClipResult where
  steering : ℝ
  speed : ℝ
  is_clipped : Bool

/-- Modelled from the spec: `clipSteeringAngle` (declared at
swerve_controller.h line 232, body not among the sources). If the resolved
target angle falls outside the steering range
`[min_steering_angle_, max_steering_angle_]` (header lines 146-147) it is
clamped to the nearest bound and the clipped indicator is set; otherwise
the angle passes through and the indicator stays clear. -/
def clipSteeringAngle (min_steering_angle max_steering_angle steering speed : ℝ) :
    ClipResult :=
  if steering < min_steering_angle then
    { steering := min_steering_angle, speed := speed, is_clipped := true }
  else if max_steering_angle < steering then
    { steering := max_steering_angle, speed := speed, is_clipped := true }
  else
    { steering := steering, speed := speed, is_clipped := false }

/-- Modelled from the spec: `checkError` (declared at swerve_controller.h
line 236, body not among the sources) reports whether the absolute steering
error of one wheel exceeds the configured angle threshold
(`angle_threshold_`, header line 186). -/
def checkError (angle_threshold target_angle current_angle : ℝ) : Bool :=
  if angle_threshold < |target_angle - current_angle| then true else false

/-! ## Inverse kinematics -/

/-- Static robot geometry (header lines 134-147). -/
structure Geometry where
  track : ℝ
  wheel_steering_y_offset : ℝ
  wheel_radius : ℝ
  wheel_base : ℝ
  min_steering_angle : ℝ
  max_steering_angle : ℝ

/-- Planar position of each wheel corner relative to the rotation center:
index 0 = front-left, 1 = front-right, 2 = rear-left, 3 = rear-right. -/
def wheelPos (g : Geometry) : Fin 4 → ℝ × ℝ
  | 0 => (g.wheel_base / 2, g.track / 2)
  | 1 => (g.wheel_base / 2, -(g.track / 2))
  | 2 => (-(g.wheel_base / 2), g.track / 2)
  | 3 => (-(g.wheel_base / 2), -(g.track / 2))

/-- Modelled from the spec: the required ground velocity vector of one
wheel is the vehicle's linear velocity plus the rotational contribution
`ω × r_wheel` at that wheel's offset from the rotation center. -/
def wheelVelocity (g : Geometry) (c : CommandTwist) (i : Fin 4) : ℝ × ℝ :=
  (c.lin_x - c.ang * (wheelPos g i).2, c.lin_y + c.ang * (wheelPos g i).1)

/-- Two-argument arctangent: the direction of the vector `(x, y)`,
in `(-π, π]`. -/
def atan2 (y x : ℝ) : ℝ :=
  Complex.arg ⟨x, y⟩

/-- Modelled from the spec: the raw target steering angle of a wheel is the
direction of its required ground velocity vector. -/
def rawAngle (g : Geometry) (c : CommandTwist) (i : Fin 4) : ℝ :=
  atan2 (wheelVelocity g c i).2 (wheelVelocity g c i).1

/-- Modelled from the spec: the raw target wheel rotation speed is the
magnitude of the required ground velocity vector divided by the wheel
radius. -/
def rawSpeed (g : Geometry) (c : CommandTwist) (i : Fin 4) : ℝ :=
  Real.sqrt ((wheelVelocity g c i).1 ^ 2 + (wheelVelocity g c i).2 ^ 2) / g.wheel_radius

/-! ## One control cycle of updateCommand -/

/-- Per-wheel actuation command produced by one cycle. -/
structure WheelTarget where
  speed : ℝ
  steering_angle : ℝ
  direction_inverted : Bool
  clipped : Bool

/-- Steering resolution for one wheel: minimize-turn followed by the clip
step against the steering range. -/
def resolveWheel (g : Geometry) (raw_speed raw_angle current_angle : ℝ) : WheelTarget :=
  let t := minimizeTurn raw_angle current_angle raw_speed
  let cl := clipSteeringAngle g.min_steering_angle g.max_steering_angle t.target t.speed
  { speed := cl.speed
    steering_angle := cl.steering
    direction_inverted := t.inverted
    clipped := cl.is_clipped }

/-- Modelled from the spec: the staleness gate of a cycle. A buffered
command whose timestamp is older than `cmd_vel_timeout_` (header line 150)
than the cycle time is replaced by a zero command (brake); its velocity
values are discarded. -/
def effectiveCommand (now cmd_vel_timeout : ℝ) (cmd : CommandTwist) : CommandTwist :=
  if cmd_vel_timeout < now - cmd.stamp then
    { cmd with lin_x := 0, lin_y := 0, ang := 0 }
  else
    cmd

/-- Per-wheel targets of a cycle before the rotate-before-translate
suppression: staleness gate, inverse kinematics, minimize-turn, clip. -/
def resolvedTargets (g : Geometry) (now cmd_vel_timeout : ℝ) (cmd : CommandTwist)
    (current_angle : Fin 4 → ℝ) : Fin 4 → WheelTarget :=
  fun i =>
    let c := effectiveCommand now cmd_vel_timeout cmd
    resolveWheel g (rawSpeed g c i) (rawAngle g c i) (current_angle i)

/-- The rotate-before-translate decision of one cycle: `checkError` is
evaluated on each of the four wheels in turn (front-left, front-right,
rear-left, rear-right) and the results are or-ed together. -/
def stopFlag (g : Geometry) (angle_threshold now cmd_vel_timeout : ℝ)
    (cmd : CommandTwist) (current_angle : Fin 4 → ℝ) : Bool :=
  let pre := resolvedTargets g now cmd_vel_timeout cmd current_angle
  checkError angle_threshold (pre 0).steering_angle (current_angle 0) ||
  checkError angle_threshold (pre 1).steering_angle (current_angle 1) ||
  checkError angle_threshold (pre 2).steering_angle (current_angle 2) ||
  checkError angle_threshold (pre 3).steering_angle (current_angle 3)

/-- Modelled from the spec: one full `updateCommand` cycle (declared at
swerve_controller.h line 228, body not among the sources). After the
per-wheel steering resolution, if any wheel error exceeds the angle
threshold, the translational speeds of all four wheels are zeroed for this
cycle while the steering position targets are kept. -/
def updateCommandCycle (g : Geometry) (angle_threshold now cmd_vel_timeout : ℝ)
    (cmd : CommandTwist) (current_angle : Fin 4 → ℝ) : Fin 4 → WheelTarget :=
  let pre := resolvedTargets g now cmd_vel_timeout cmd current_angle
  fun i =>
    if stopFlag g angle_threshold now cmd_vel_timeout cmd current_angle then
      { pre i with speed := 0 }
    else
      pre i

/-! ## SpeedLimiter -/

/-- SpeedLimiter configuration (swerve_controller/speed_limiter.h is not
among the sources; member list follows the spec: configured bounds on
velocity, acceleration and jerk, each of which can be enabled). -/
structure SpeedLimiter where
  has_velocity_limits : Bool
  has_acceleration_limits : Bool
  has_jerk_limits : Bool
  min_velocity : ℝ
  max_velocity : ℝ
  min_acceleration : ℝ
  max_acceleration : ℝ
  min_jerk : ℝ
  max_jerk : ℝ

/-- Clamp a value to `[lo, hi]`. -/
def clampVal (x lo hi : ℝ) : ℝ :=
  min (max x lo) hi

/-- Modelled from the spec: limit the jerk derived from the two most recent
prior values `v0` and `v1`. -/
def SpeedLimiter.limit_jerk (l : SpeedLimiter) (v v0 v1 dt : ℝ) : ℝ :=
  if l.has_jerk_limits then
    let dv := v - v0
    let dv0 := v0 - v1
    let dt2 := 2 * dt * dt
    v0 + dv0 + clampVal (dv - dv0) (l.min_jerk * dt2) (l.max_jerk * dt2)
  else
    v

/-- Modelled from the spec: limit the per-cycle change of the command to
the configured acceleration and deceleration bounds times the elapsed
time. -/
def SpeedLimiter.limit_acceleration (l : SpeedLimiter) (v v0 dt : ℝ) : ℝ :=
  if l.has_acceleration_limits then
    v0 + clampVal (v - v0) (l.min_acceleration * dt) (l.max_acceleration * dt)
  else
    v

/-- Modelled from the spec: clamp the command to the configured velocity
bounds. -/
def SpeedLimiter.limit_velocity (l : SpeedLimiter) (v : ℝ) : ℝ :=
  if l.has_velocity_limits then
    clampVal v l.min_velocity l.max_velocity
  else
    v

/-- Modelled from the spec: `SpeedLimiter::limit(v, v0, v1, dt)` applies the
jerk bound, then the acceleration bound, then the velocity bound
(the order used by the ros_controllers speed limiters). -/
def SpeedLimiter.limit (l : SpeedLimiter) (v v0 v1 dt : ℝ) : ℝ :=
  l.limit_velocity (l.limit_acceleration (l.limit_jerk v v0 v1 dt) v0 dt)

/-! ## Odometry -/

/-- Estimated pose and velocity of the vehicle (spec section 3,
OdometryState). -/
structure OdometryState where
  x : ℝ
  y : ℝ
  heading : ℝ
  linear_velocity : ℝ
  angular_velocity : ℝ
  last_update_time : ℝ

/-- Measured speed and steering angle of one wheel. -/
structure WheelFeedback where
  speed : ℝ
  steering : ℝ

/-- Ground velocity vector realized by one wheel, from its measured
rotation speed and steering angle. -/
def feedbackVelocity (g : Geometry) (fb : WheelFeedback) : ℝ × ℝ :=
  (g.wheel_radius * fb.speed * Real.cos fb.steering,
   g.wheel_radius * fb.speed * Real.sin fb.steering)

/-- Modelled from the spec: the odometry update (declared at
swerve_controller.h line 226; `Odometry::update` of
swerve_controller/odometry.h is not among the sources). With zero elapsed
time the update is a no-op that returns the prior state unchanged;
otherwise the realized body-frame velocity is reconstructed from the wheel
feedback (average of the wheel ground velocities; angular rate from the
moments of the wheel velocities about the rotation center) and the pose is
integrated by a first-order Euler step over the elapsed time. -/
def updateOdometry (g : Geometry) (s : OdometryState) (fb : Fin 4 → WheelFeedback)
    (elapsed_time : ℝ) : OdometryState :=
  if elapsed_time = 0 then
    s
  else
    let v : Fin 4 → ℝ × ℝ := fun i => feedbackVelocity g (fb i)
    let vx := ((v 0).1 + (v 1).1 + (v 2).1 + (v 3).1) / 4
    let vy := ((v 0).2 + (v 1).2 + (v 2).2 + (v 3).2) / 4
    let p : Fin 4 → ℝ × ℝ := wheelPos g
    let moment : Fin 4 → ℝ := fun i => (p i).1 * (v i).2 - (p i).2 * (v i).1
    let inertia : Fin 4 → ℝ := fun i => (p i).1 ^ 2 + (p i).2 ^ 2
    let ω := (moment 0 + moment 1 + moment 2 + moment 3) /
             (inertia 0 + inertia 1 + inertia 2 + inertia 3)
    { x := s.x + (vx * Real.cos s.heading - vy * Real.sin s.heading) * elapsed_time
      y := s.y + (vx * Real.sin s.heading + vy * Real.cos s.heading) * elapsed_time
      heading := s.heading + ω * elapsed_time
      linear_velocity := Real.sqrt (vx ^ 2 + vy ^ 2)
      angular_velocity := ω
      last_update_time := s.last_update_time + elapsed_time }

/-! ## Concrete inputs used to exercise the model -/

/-- A concrete geometry: track 1, no steering offset, wheel radius 1,
wheel base 1, steering range `[-2, 2]`. -/
def demoGeometry : Geometry :=
  { track := 1
    wheel_steering_y_offset := 0
    wheel_radius := 1
    wheel_base := 1
    min_steering_angle := -2
    max_steering_angle := 2 }

/-- A concrete fresh command: timestamp 0, pure forward motion. -/
def demoTwist : CommandTwist :=
  { stamp := 0, lin_x := 1, lin_y := 0, ang := 0 }

/-- Concrete current steering angles: all four wheels at 1 rad. -/
def demoAngles : Fin 4 → ℝ := fun _ => 1

/-- A concrete command with large velocity values and timestamp 0, used
with a later cycle time to exercise the staleness gate. -/
def staleTwist : CommandTwist :=
  { stamp := 0, lin_x := 100, lin_y := -50, ang := 7 }

/-- A concrete limiter with velocity bounds `[-1, 1]` and acceleration
bounds `[-1, 1]`, jerk limiting off. -/
def narrowLimiter : SpeedLimiter :=
  { has_velocity_limits := true
    has_acceleration_limits := true
    has_jerk_limits := false
    min_velocity := -1
    max_velocity := 1
    min_acceleration := -1
    max_acceleration := 1
    min_jerk := 0
    max_jerk := 0 }

/-- A concrete limiter with velocity bounds `[-5, 5]` and acceleration
bounds `[-2, 2]`, jerk limiting off. -/
def boundedLimiter : SpeedLimiter :=
  { has_velocity_limits := true
    has_acceleration_limits := true
    has_jerk_limits := false
    min_velocity := -5
    max_velocity := 5
    min_acceleration := -2
    max_acceleration := 2
    min_jerk := 0
    max_jerk := 0 }

/-! ## Basic properties of the angle wrap -/

lemma two_pi_pos : (0 : ℝ) < 2 * Real.pi := by
  linarith [Real.pi_pos]

lemma wrapAngle_fract (θ : ℝ) :
    wrapAngle θ = 2 * Real.pi * Int.fract ((θ + Real.pi) / (2 * Real.pi)) - Real.pi := by
  have h2 : (2 * Real.pi) ≠ 0 := ne_of_gt two_pi_pos
  have hu : 2 * Real.pi * ((θ + Real.pi) / (2 * Real.pi)) = θ + Real.pi := by
    field_simp
  rw [Int.fract, mul_sub, hu]
  unfold wrapAngle
  ring

lemma neg_pi_le_wrapAngle (θ : ℝ) : -Real.pi ≤ wrapAngle θ := by
  rw [wrapAngle_fract]
  have hf := Int.fract_nonneg ((θ + Real.pi) / (2 * Real.pi))
  nlinarith [Real.pi_pos]

lemma wrapAngle_lt_pi (θ : ℝ) : wrapAngle θ < Real.pi := by
  rw [wrapAngle_fract]
  have hf := Int.fract_lt_one ((θ + Real.pi) / (2 * Real.pi))
  nlinarith [Real.pi_pos]

lemma wrapAngle_add_int (θ : ℝ) (k : ℤ) :
    wrapAngle (θ + 2 * Real.pi * k) = wrapAngle θ := by
  have h2 : (2 * Real.pi) ≠ 0 := ne_of_gt two_pi_pos
  have harg : (θ + 2 * Real.pi * k + Real.pi) / (2 * Real.pi)
      = (θ + Real.pi) / (2 * Real.pi) + k := by
    field_simp
    ring
  rw [wrapAngle_fract, wrapAngle_fract, harg, Int.fract_add_int]

lemma wrapAngle_eq_self {θ : ℝ} (h1 : -Real.pi ≤ θ) (h2 : θ < Real.pi) :
    wrapAngle θ = θ := by
  have hfl : ⌊(θ + Real.pi) / (2 * Real.pi)⌋ = 0 := by
    rw [Int.floor_eq_zero_iff, Set.mem_Ico]
    constructor
    · exact div_nonneg (by linarith) (le_of_lt two_pi_pos)
    · rw [div_lt_one two_pi_pos]
      linarith
  unfold wrapAngle
  rw [hfl]
  push_cast
  ring

lemma wrapAngle_sub_int (θ : ℝ) : ∃ k : ℤ, wrapAngle θ = θ - 2 * Real.pi * k :=
  ⟨⌊(θ + Real.pi) / (2 * Real.pi)⌋, rfl⟩

lemma wrapAngle_add_pi (θ : ℝ) :
    wrapAngle (θ + Real.pi)
      = if wrapAngle θ < 0 then wrapAngle θ + Real.pi else wrapAngle θ - Real.pi := by
  obtain ⟨k, hk⟩ := wrapAngle_sub_int θ
  have hθ : θ + Real.pi = (wrapAngle θ + Real.pi) + 2 * Real.pi * k := by
    rw [hk]; ring
  rw [hθ, wrapAngle_add_int]
  rcases lt_or_le (wrapAngle θ) 0 with h | h
  · rw [if_pos h]
    exact wrapAngle_eq_self (by linarith [neg_pi_le_wrapAngle θ, Real.pi_pos])
      (by linarith)
  · rw [if_neg (not_lt.mpr h)]
    have hsh : wrapAngle θ + Real.pi = (wrapAngle θ - Real.pi) + 2 * Real.pi * (1 : ℤ) := by
      push_cast
      ring
    rw [hsh, wrapAngle_add_int]
    exact wrapAngle_eq_self (by linarith) (by linarith [wrapAngle_lt_pi θ, Real.pi_pos])

lemma abs_wrapAngle_add_pi (θ : ℝ) :
    |wrapAngle (θ + Real.pi)| = Real.pi - |wrapAngle θ| := by
  rw [wrapAngle_add_pi]
  rcases lt_or_le (wrapAngle θ) 0 with h | h
  · have hnn : (0 : ℝ) ≤ wrapAngle θ + Real.pi := by
      linarith [neg_pi_le_wrapAngle θ]
    rw [if_pos h, abs_of_nonneg hnn, abs_of_neg h]
    ring
  · have hnp : wrapAngle θ - Real.pi ≤ 0 := by
      linarith [wrapAngle_lt_pi θ]
    rw [if_neg (not_lt.mpr h), abs_of_nonpos hnp, abs_of_nonneg h]
    ring

/-! ## Claim C1 -/

/-- C1: for every current steering angle and every raw target steering
angle, the resolution chosen by minimizeTurn (which may invert the drive
direction) has absolute rotation magnitude
`|chosen target angle - current angle|` at most `π / 2`. -/
theorem minimizeTurn_rotation_le_half_pi (new_angle current_angle speed : ℝ) :
    |(minimizeTurn new_angle current_angle speed).target - current_angle|
      ≤ Real.pi / 2 := by
  have hd2 : wrapAngle (new_angle + Real.pi - current_angle)
      = wrapAngle (new_angle - current_angle + Real.pi) := by
    congr 1
    ring
  have habs : |wrapAngle (new_angle - current_angle + Real.pi)|
      = Real.pi - |wrapAngle (new_angle - current_angle)| :=
    abs_wrapAngle_add_pi _
  simp only [minimizeTurn]
  split_ifs with h
  · rw [hd2, habs] at h
    show |current_angle + wrapAngle (new_angle + Real.pi - current_angle) - current_angle|
        ≤ Real.pi / 2
    have e : current_angle + wrapAngle (new_angle + Real.pi - current_angle) - current_angle
        = wrapAngle (new_angle + Real.pi - current_angle) := by
      ring
    rw [e, hd2, habs]
    linarith [abs_nonneg (wrapAngle (new_angle - current_angle))]
  · rw [hd2, habs] at h
    push_neg at h
    show |current_angle + wrapAngle (new_angle - current_angle) - current_angle|
        ≤ Real.pi / 2
    have e : current_angle + wrapAngle (new_angle - current_angle) - current_angle
        = wrapAngle (new_angle - current_angle) := by
      ring
    rw [e]
    linarith

/-! ## Claim C8 -/

/-- C8: whenever the minimize-turn resolution chooses direction inversion,
the wheel speed's sign is flipped relative to the raw kinematic speed, and
the target steering angle equals the raw angle shifted by π modulo full
turns — the same physical wheel orientation reached by spinning the wheel
backward. -/
theorem minimizeTurn_inversion_shape (new_angle current_angle speed : ℝ)
    (h : (minimizeTurn new_angle current_angle speed).inverted = true) :
    (minimizeTurn new_angle current_angle speed).speed = -speed ∧
      wrapAngle ((minimizeTurn new_angle current_angle speed).target
        - (new_angle + Real.pi)) = 0 := by
  by_cases hc : |wrapAngle (new_angle + Real.pi - current_angle)|
      < |wrapAngle (new_angle - current_angle)|
  · have heq : minimizeTurn new_angle current_angle speed
        = { target := current_angle + wrapAngle (new_angle + Real.pi - current_angle),
            speed := -speed, inverted := true } := by
      simp only [minimizeTurn]
      rw [if_pos hc]
    obtain ⟨k, hk⟩ := wrapAngle_sub_int (new_angle + Real.pi - current_angle)
    refine ⟨by rw [heq], ?_⟩
    rw [heq]
    show wrapAngle (current_angle + wrapAngle (new_angle + Real.pi - current_angle)
        - (new_angle + Real.pi)) = 0
    rw [hk]
    have harg : current_angle + (new_angle + Real.pi - current_angle - 2 * Real.pi * k)
        - (new_angle + Real.pi) = 0 + 2 * Real.pi * (-k : ℤ) := by
      push_cast
      ring
    rw [harg, wrapAngle_add_int]
    exact wrapAngle_eq_self (by linarith [Real.pi_pos]) Real.pi_pos
  · have heq : minimizeTurn new_angle current_angle speed
        = { target := current_angle + wrapAngle (new_angle - current_angle),
            speed := speed, inverted := false } := by
      simp only [minimizeTurn]
      rw [if_neg hc]
    rw [heq] at h
    simp at h

/-- Witness for C8 at the concrete input `new_angle = π`,
`current_angle = 0`, `speed = 1`: the inversion branch is taken, the speed
is negated and the target coincides with `new_angle + π` up to whole
turns. -/
theorem minimizeTurn_inversion_shape_witness :
    (minimizeTurn Real.pi 0 1).inverted = true ∧
      ((minimizeTurn Real.pi 0 1).speed = -1 ∧
        wrapAngle ((minimizeTurn Real.pi 0 1).target - (Real.pi + Real.pi)) = 0) := by
  have h1 : wrapAngle (Real.pi - 0) = -Real.pi := by
    have hsh : Real.pi - 0 = -Real.pi + 2 * Real.pi * (1 : ℤ) := by
      push_cast
      ring
    rw [hsh, wrapAngle_add_int]
    exact wrapAngle_eq_self (le_refl _) (by linarith [Real.pi_pos])
  have h2 : wrapAngle (Real.pi + Real.pi - 0) = 0 := by
    have hsh : Real.pi + Real.pi - 0 = 0 + 2 * Real.pi * (1 : ℤ) := by
      push_cast
      ring
    rw [hsh, wrapAngle_add_int]
    exact wrapAngle_eq_self (by linarith [Real.pi_pos]) Real.pi_pos
  have hlt : |wrapAngle (Real.pi + Real.pi - 0)| < |wrapAngle (Real.pi - 0)| := by
    rw [h1, h2, abs_zero, abs_neg, abs_of_pos Real.pi_pos]
    exact Real.pi_pos
  have hinv : (minimizeTurn Real.pi 0 1).inverted = true := by
    simp only [minimizeTurn]
    rw [if_pos hlt]
  exact ⟨hinv, minimizeTurn_inversion_shape Real.pi 0 1 hinv⟩

/-! ## Claim C2 -/

lemma clipSteeringAngle_spec (mn mx a s : ℝ) (h : mn ≤ mx) :
    (mn ≤ (clipSteeringAngle mn mx a s).steering ∧
      (clipSteeringAngle mn mx a s).steering ≤ mx) ∧
    ((a < mn ∨ mx < a) → (clipSteeringAngle mn mx a s).is_clipped = true) := by
  unfold clipSteeringAngle
  split_ifs with h1 h2
  · exact ⟨⟨le_refl mn, h⟩, fun _ => rfl⟩
  · exact ⟨⟨h, le_refl mx⟩, fun _ => rfl⟩
  · push_neg at h1 h2
    refine ⟨⟨h1, h2⟩, fun hc => ?_⟩
    rcases hc with hlt | hgt
    · exact absurd hlt (not_lt.mpr h1)
    · exact absurd hgt (not_lt.mpr h2)

/-- C2: for every wheel and every input steering angle, after the steering
resolution and clip step the resulting target steering angle lies within
`[min_steering_angle, max_steering_angle]`, and whenever the pre-clip
angle (the minimize-turn target) falls outside that range the per-wheel
clipped indicator is set. -/
theorem resolveWheel_steering_in_range (g : Geometry)
    (raw_speed raw_angle current_angle : ℝ)
    (h : g.min_steering_angle ≤ g.max_steering_angle) :
    (g.min_steering_angle
        ≤ (resolveWheel g raw_speed raw_angle current_angle).steering_angle ∧
      (resolveWheel g raw_speed raw_angle current_angle).steering_angle
        ≤ g.max_steering_angle) ∧
    (((minimizeTurn raw_angle current_angle raw_speed).target < g.min_steering_angle ∨
        g.max_steering_angle < (minimizeTurn raw_angle current_angle raw_speed).target) →
      (resolveWheel g raw_speed raw_angle current_angle).clipped = true) :=
  clipSteeringAngle_spec g.min_steering_angle g.max_steering_angle
    (minimizeTurn raw_angle current_angle raw_speed).target
    (minimizeTurn raw_angle current_angle raw_speed).speed h

/-- Witness for C2 on the concrete geometry with steering range `[-2, 2]`
and the wheel inputs `raw_speed = 0`, `raw_angle = 0`,
`current_angle = 0`. -/
theorem resolveWheel_steering_in_range_witness :
    demoGeometry.min_steering_angle ≤ demoGeometry.max_steering_angle ∧
    ((demoGeometry.min_steering_angle
        ≤ (resolveWheel demoGeometry 0 0 0).steering_angle ∧
      (resolveWheel demoGeometry 0 0 0).steering_angle
        ≤ demoGeometry.max_steering_angle) ∧
    (((minimizeTurn 0 0 0).target < demoGeometry.min_steering_angle ∨
        demoGeometry.max_steering_angle < (minimizeTurn 0 0 0).target) →
      (resolveWheel demoGeometry 0 0 0).clipped = true)) := by
  have h : demoGeometry.min_steering_angle ≤ demoGeometry.max_steering_angle := by
    norm_num [demoGeometry]
  exact ⟨h, resolveWheel_steering_in_range demoGeometry 0 0 0 h⟩

/-! ## Claim C3 -/

lemma checkError_eq_true_iff (angle_threshold target_angle current_angle : ℝ) :
    checkError angle_threshold target_angle current_angle = true
      ↔ angle_threshold < |target_angle - current_angle| := by
  unfold checkError
  split_ifs with h
  · simp [h]
  · simp [h]

/-- C3: in every control cycle, if any one of the four wheels' absolute
steering error `|target_angle - current_angle|` exceeds the configured
angle threshold, then the translational speed of every wheel is set to
zero for that cycle, while the steering position target of every wheel is
still the resolved target. -/
theorem updateCommandCycle_zeroes_speeds (g : Geometry)
    (angle_threshold now cmd_vel_timeout : ℝ) (cmd : CommandTwist)
    (current_angle : Fin 4 → ℝ) (i : Fin 4)
    (h : angle_threshold <
        |(resolvedTargets g now cmd_vel_timeout cmd current_angle 0).steering_angle
          - current_angle 0| ∨
      angle_threshold <
        |(resolvedTargets g now cmd_vel_timeout cmd current_angle 1).steering_angle
          - current_angle 1| ∨
      angle_threshold <
        |(resolvedTargets g now cmd_vel_timeout cmd current_angle 2).steering_angle
          - current_angle 2| ∨
      angle_threshold <
        |(resolvedTargets g now cmd_vel_timeout cmd current_angle 3).steering_angle
          - current_angle 3|) :
    (updateCommandCycle g angle_threshold now cmd_vel_timeout cmd current_angle i).speed
        = 0 ∧
      (updateCommandCycle g angle_threshold now cmd_vel_timeout cmd
          current_angle i).steering_angle
        = (resolvedTargets g now cmd_vel_timeout cmd current_angle i).steering_angle := by
  have hstop : stopFlag g angle_threshold now cmd_vel_timeout cmd current_angle = true := by
    simp only [stopFlag, Bool.or_eq_true, checkError_eq_true_iff]
    tauto
  have hcyc : updateCommandCycle g angle_threshold now cmd_vel_timeout cmd current_angle i
      = { resolvedTargets g now cmd_vel_timeout cmd current_angle i with speed := 0 } := by
    simp only [updateCommandCycle]
    rw [if_pos hstop]
  rw [hcyc]
  exact ⟨rfl, rfl⟩

/-- Witness for C3: the concrete geometry, a fresh pure-forward command and
all four wheels currently at 1 rad; the resolved steering target of wheel 0
is 0 rad, so its error 1 rad exceeds the threshold 0.5, and the cycle zeroes
the wheel speed while keeping the steering target. -/
theorem updateCommandCycle_zeroes_speeds_witness :
    ((0.5 : ℝ) <
        |(resolvedTargets demoGeometry 0 1 demoTwist demoAngles 0).steering_angle
          - demoAngles 0| ∨
      (0.5 : ℝ) <
        |(resolvedTargets demoGeometry 0 1 demoTwist demoAngles 1).steering_angle
          - demoAngles 1| ∨
      (0.5 : ℝ) <
        |(resolvedTargets demoGeometry 0 1 demoTwist demoAngles 2).steering_angle
          - demoAngles 2| ∨
      (0.5 : ℝ) <
        |(resolvedTargets demoGeometry 0 1 demoTwist demoAngles 3).steering_angle
          - demoAngles 3|) ∧
    ((updateCommandCycle demoGeometry 0.5 0 1 demoTwist demoAngles 0).speed = 0 ∧
      (updateCommandCycle demoGeometry 0.5 0 1 demoTwist demoAngles 0).steering_angle
        = (resolvedTargets demoGeometry 0 1 demoTwist demoAngles 0).steering_angle) := by
  have heff : effectiveCommand 0 1 demoTwist = demoTwist := by
    unfold effectiveCommand
    rw [if_neg (by norm_num [demoTwist] : ¬((1 : ℝ) < 0 - demoTwist.stamp))]
  have hvel : wheelVelocity demoGeometry demoTwist 0 = (1, 0) := by
    unfold wheelVelocity wheelPos
    norm_num [demoTwist, Prod.ext_iff]
  have hang : rawAngle demoGeometry demoTwist 0 = 0 := by
    unfold rawAngle
    rw [hvel]
    show atan2 0 1 = 0
    unfold atan2
    have hc : (⟨1, 0⟩ : ℂ) = 1 := by
      apply Complex.ext <;> simp
    rw [hc, Complex.arg_one]
  have hd1 : wrapAngle ((0 : ℝ) - 1) = -1 := by
    have e : (0 : ℝ) - 1 = -1 := by norm_num
    rw [e]
    exact wrapAngle_eq_self (by linarith [Real.pi_gt_three])
      (by linarith [Real.pi_gt_three])
  have hd2 : wrapAngle ((0 : ℝ) + Real.pi - 1) = Real.pi - 1 := by
    have e : (0 : ℝ) + Real.pi - 1 = Real.pi - 1 := by ring
    rw [e]
    exact wrapAngle_eq_self (by linarith [Real.pi_gt_three]) (by linarith)
  have hcond : ¬(|wrapAngle ((0 : ℝ) + Real.pi - 1)| < |wrapAngle ((0 : ℝ) - 1)|) := by
    rw [hd1, hd2, abs_of_pos (by linarith [Real.pi_gt_three] : (0 : ℝ) < Real.pi - 1)]
    rw [abs_neg, abs_one]
    exact not_lt.mpr (by linarith [Real.pi_gt_three])
  have hmt : ∀ s : ℝ, (minimizeTurn (0 : ℝ) 1 s).target = 0 := by
    intro s
    simp only [minimizeTurn]
    rw [if_neg hcond]
    show (1 : ℝ) + wrapAngle (0 - 1) = 0
    rw [hd1]
    norm_num
  have hres : (resolvedTargets demoGeometry 0 1 demoTwist demoAngles 0).steering_angle
      = 0 := by
    simp only [resolvedTargets]
    rw [heff, hang]
    have hda : demoAngles 0 = 1 := rfl
    rw [hda]
    simp only [resolveWheel]
    rw [hmt (rawSpeed demoGeometry demoTwist 0)]
    unfold clipSteeringAngle
    rw [if_neg (by norm_num [demoGeometry] : ¬((0 : ℝ) < demoGeometry.min_steering_angle))]
    rw [if_neg (by norm_num [demoGeometry] : ¬(demoGeometry.max_steering_angle < (0 : ℝ)))]
  have h : (0.5 : ℝ) <
        |(resolvedTargets demoGeometry 0 1 demoTwist demoAngles 0).steering_angle
          - demoAngles 0| ∨
      (0.5 : ℝ) <
        |(resolvedTargets demoGeometry 0 1 demoTwist demoAngles 1).steering_angle
          - demoAngles 1| ∨
      (0.5 : ℝ) <
        |(resolvedTargets demoGeometry 0 1 demoTwist demoAngles 2).steering_angle
          - demoAngles 2| ∨
      (0.5 : ℝ) <
        |(resolvedTargets demoGeometry 0 1 demoTwist demoAngles 3).steering_angle
          - demoAngles 3| := by
    left
    rw [hres]
    have hda : demoAngles 0 = 1 := rfl
    rw [hda]
    rw [show (0 : ℝ) - 1 = -1 by norm_num, abs_neg, abs_one]
    norm_num
  exact ⟨h, updateCommandCycle_zeroes_speeds demoGeometry 0.5 0 1 demoTwist demoAngles 0 h⟩

/-! ## Zero-command speed lemmas (shared by C4 and C9) -/

lemma clipSteeringAngle_speed (mn mx a s : ℝ) :
    (clipSteeringAngle mn mx a s).speed = s := by
  unfold clipSteeringAngle
  split_ifs <;> rfl

lemma minimizeTurn_speed_cases (new_angle current_angle speed : ℝ) :
    (minimizeTurn new_angle current_angle speed).speed = speed ∨
      (minimizeTurn new_angle current_angle speed).speed = -speed := by
  simp only [minimizeTurn]
  split_ifs
  · right
    rfl
  · left
    rfl

lemma resolveWheel_speed (g : Geometry) (raw_speed raw_angle current_angle : ℝ) :
    (resolveWheel g raw_speed raw_angle current_angle).speed
      = (minimizeTurn raw_angle current_angle raw_speed).speed := by
  show (clipSteeringAngle g.min_steering_angle g.max_steering_angle
      (minimizeTurn raw_angle current_angle raw_speed).target
      (minimizeTurn raw_angle current_angle raw_speed).speed).speed
    = (minimizeTurn raw_angle current_angle raw_speed).speed
  exact clipSteeringAngle_speed _ _ _ _

lemma resolveWheel_speed_of_zero (g : Geometry) (raw_angle current_angle : ℝ) :
    (resolveWheel g 0 raw_angle current_angle).speed = 0 := by
  rw [resolveWheel_speed]
  rcases minimizeTurn_speed_cases raw_angle current_angle 0 with h0 | h0
  · exact h0
  · rw [h0]
    norm_num

lemma wheelVelocity_of_zero (g : Geometry) (c : CommandTwist) (i : Fin 4)
    (hx : c.lin_x = 0) (hy : c.lin_y = 0) (ha : c.ang = 0) :
    wheelVelocity g c i = (0, 0) := by
  unfold wheelVelocity
  rw [hx, hy, ha]
  norm_num

lemma rawSpeed_of_zero (g : Geometry) (c : CommandTwist) (i : Fin 4)
    (hx : c.lin_x = 0) (hy : c.lin_y = 0) (ha : c.ang = 0) :
    rawSpeed g c i = 0 := by
  unfold rawSpeed
  rw [wheelVelocity_of_zero g c i hx hy ha]
  norm_num

lemma updateCommandCycle_speed_of_effective_zero (g : Geometry)
    (angle_threshold now cmd_vel_timeout : ℝ) (cmd : CommandTwist)
    (current_angle : Fin 4 → ℝ) (i : Fin 4)
    (hx : (effectiveCommand now cmd_vel_timeout cmd).lin_x = 0)
    (hy : (effectiveCommand now cmd_vel_timeout cmd).lin_y = 0)
    (ha : (effectiveCommand now cmd_vel_timeout cmd).ang = 0) :
    (updateCommandCycle g angle_threshold now cmd_vel_timeout cmd current_angle i).speed
      = 0 := by
  have hpre : (resolvedTargets g now cmd_vel_timeout cmd current_angle i).speed = 0 := by
    simp only [resolvedTargets]
    rw [rawSpeed_of_zero g _ i hx hy ha]
    exact resolveWheel_speed_of_zero g _ _
  simp only [updateCommandCycle]
  split_ifs
  · rfl
  · exact hpre

/-! ## Claim C4 -/

/-- C4: for every buffered velocity command whose timestamp is older than
`cmd_vel_timeout_` relative to the current cycle time, the cycle computes
every wheel speed as zero (brake), regardless of the command's velocity
values. -/
theorem staleCommand_brakes (g : Geometry) (angle_threshold now cmd_vel_timeout : ℝ)
    (cmd : CommandTwist) (current_angle : Fin 4 → ℝ) (i : Fin 4)
    (h : cmd_vel_timeout < now - cmd.stamp) :
    (updateCommandCycle g angle_threshold now cmd_vel_timeout cmd current_angle i).speed
      = 0 := by
  have heff : effectiveCommand now cmd_vel_timeout cmd
      = { cmd with lin_x := 0, lin_y := 0, ang := 0 } := by
    unfold effectiveCommand
    rw [if_pos h]
  exact updateCommandCycle_speed_of_effective_zero g angle_threshold now cmd_vel_timeout
    cmd current_angle i (by rw [heff]) (by rw [heff]) (by rw [heff])

/-- Witness for C4: a command with timestamp 0 and large velocity values,
read at cycle time 10 with a timeout of 1, yields wheel speed 0. -/
theorem staleCommand_brakes_witness :
    (1 : ℝ) < 10 - staleTwist.stamp ∧
      (updateCommandCycle demoGeometry 0.5 10 1 staleTwist demoAngles 0).speed = 0 := by
  have h : (1 : ℝ) < 10 - staleTwist.stamp := by
    norm_num [staleTwist]
  exact ⟨h, staleCommand_brakes demoGeometry 0.5 10 1 staleTwist demoAngles 0 h⟩

/-! ## Claim C9 -/

/-- C9: a default-constructed command twist has `lin_x = 0`, `lin_y = 0`,
`ang = 0` and timestamp 0, and with it buffered, every cycle — stale or
not — computes zero wheel speed for every wheel. -/
theorem defaultTwist_zero_speeds (g : Geometry)
    (angle_threshold now cmd_vel_timeout : ℝ) (current_angle : Fin 4 → ℝ) (i : Fin 4) :
    (CommandTwist.defaultCtor.lin_x = 0 ∧ CommandTwist.defaultCtor.lin_y = 0 ∧
      CommandTwist.defaultCtor.ang = 0 ∧ CommandTwist.defaultCtor.stamp = 0) ∧
    (updateCommandCycle g angle_threshold now cmd_vel_timeout CommandTwist.defaultCtor
        current_angle i).speed = 0 := by
  refine ⟨⟨rfl, rfl, rfl, rfl⟩, ?_⟩
  apply updateCommandCycle_speed_of_effective_zero
  all_goals
    unfold effectiveCommand
    split_ifs <;> rfl

/-! ## Claim C6 -/

/-- C6: for every odometry state, the odometry update with elapsed time
equal to zero leaves every field of the state unchanged — it is a no-op,
not an error. -/
theorem updateOdometry_zero_elapsed (g : Geometry) (s : OdometryState)
    (fb : Fin 4 → WheelFeedback) :
    updateOdometry g s fb 0 = s := by
  unfold updateOdometry
  rw [if_pos rfl]

/-! ## Claim C7 -/

/-- C7: for every twist with zero angular component and non-zero linear
component, the raw steering angle produced by the inverse kinematics is
`atan2(lin_y, lin_x)` for each of the four wheels. -/
theorem rawAngle_of_zero_ang (g : Geometry) (c : CommandTwist) (i : Fin 4)
    (hang : c.ang = 0) (_hne : c.lin_x ≠ 0 ∨ c.lin_y ≠ 0) :
    rawAngle g c i = atan2 c.lin_y c.lin_x := by
  have hv : wheelVelocity g c i = (c.lin_x, c.lin_y) := by
    unfold wheelVelocity
    rw [hang]
    norm_num
  unfold rawAngle
  rw [hv]

/-- Witness for C7 on the concrete pure-forward command. -/
theorem rawAngle_of_zero_ang_witness :
    (demoTwist.ang = 0 ∧ (demoTwist.lin_x ≠ 0 ∨ demoTwist.lin_y ≠ 0)) ∧
      rawAngle demoGeometry demoTwist 0 = atan2 demoTwist.lin_y demoTwist.lin_x := by
  have h1 : demoTwist.ang = 0 := rfl
  have h2 : demoTwist.lin_x ≠ 0 ∨ demoTwist.lin_y ≠ 0 := by
    left
    norm_num [demoTwist]
  exact ⟨⟨h1, h2⟩, rawAngle_of_zero_ang demoGeometry demoTwist 0 h1 h2⟩

/-! ## Claim C10 -/

lemma paramState_buffer_const (u1 u2 : Bool) (n : ℕ) :
    (updateDynamicParams^[n] (ParamState.init u1 u2)).buffer
      = DynamicParams.defaultCtor u2 := by
  induction n with
  | zero => rfl
  | succ m ih =>
      rw [Function.iterate_succ_apply']
      exact ih

lemma paramState_active_cases (u1 u2 : Bool) (n : ℕ) :
    (updateDynamicParams^[n] (ParamState.init u1 u2)).active
        = DynamicParams.defaultCtor u1 ∨
      (updateDynamicParams^[n] (ParamState.init u1 u2)).active
        = DynamicParams.defaultCtor u2 := by
  cases n with
  | zero => exact Or.inl rfl
  | succ m =>
      right
      rw [Function.iterate_succ_apply']
      exact paramState_buffer_const u1 u2 m

/-- C10: default-constructed dynamic parameters are
`angle_threshold = 0.5`, `enable_odom_tf = true`, `wheel_radius = 0.135`
(with the `update` member left indeterminate by the constructor), the
per-wheel clipped indicators start at 0, and — as long as only cycle
boundaries apply the buffered parameters and no reconfiguration update is
pushed — every cycle's working parameters keep exactly these values. -/
theorem dynamicParams_defaults (u1 u2 : Bool) (n : ℕ) :
    ((DynamicParams.defaultCtor u1).angle_threshold = 0.5 ∧
      (DynamicParams.defaultCtor u1).enable_odom_tf = true ∧
      (DynamicParams.defaultCtor u1).wheel_radius = 0.135) ∧
    (ClipFlags.init.lf_clipped = 0 ∧ ClipFlags.init.rf_clipped = 0 ∧
      ClipFlags.init.lh_clipped = 0 ∧ ClipFlags.init.rh_clipped = 0) ∧
    ((updateDynamicParams^[n] (ParamState.init u1 u2)).active.angle_threshold = 0.5 ∧
      (updateDynamicParams^[n] (ParamState.init u1 u2)).active.enable_odom_tf = true ∧
      (updateDynamicParams^[n] (ParamState.init u1 u2)).active.wheel_radius = 0.135) := by
  refine ⟨⟨rfl, rfl, rfl⟩, ⟨rfl, rfl, rfl, rfl⟩, ?_⟩
  rcases paramState_active_cases u1 u2 n with h | h <;> rw [h] <;> exact ⟨rfl, rfl, rfl⟩

/-! ## Claim C5 -/

/-- Counterexample to C5 as stated: with the velocity clamp applied after
the acceleration clamp, a history value outside the velocity bounds breaks
the per-cycle change bound. With velocity bounds `[-1, 1]`, acceleration
bounds `[-1, 1]`, `v = 10`, `last = 10`, `last2 = 10`, `dt = 1`, the
output is 1 and `|1 - 10| = 9 > max_acceleration * dt = 1`. -/
theorem speedLimiter_bound_counterexample :
    ¬(|narrowLimiter.limit 10 10 10 1 - 10|
        ≤ narrowLimiter.max_acceleration * 1) := by
  have hval : narrowLimiter.limit 10 10 10 1 = 1 := by
    unfold SpeedLimiter.limit SpeedLimiter.limit_jerk SpeedLimiter.limit_acceleration
      SpeedLimiter.limit_velocity clampVal
    norm_num [narrowLimiter, min_def, max_def]
  rw [hval]
  have hmax : narrowLimiter.max_acceleration = 1 := rfl
  rw [hmax]
  rw [show (1 : ℝ) - 10 = -9 from by norm_num, abs_neg,
    abs_of_pos (by norm_num : (0 : ℝ) < 9)]
  norm_num

lemma clamp_toward_interior (lo hi v0 w : ℝ) (h1 : lo ≤ v0) (h2 : v0 ≤ hi) :
    |clampVal w lo hi - v0| ≤ |w - v0| := by
  unfold clampVal
  rcases le_total w lo with hw | hw
  · rw [max_eq_right hw, min_eq_left (le_trans h1 h2)]
    rw [abs_of_nonpos (by linarith), abs_of_nonpos (by linarith)]
    linarith
  · rcases le_total w hi with hw2 | hw2
    · rw [max_eq_left hw, min_eq_left hw2]
    · rw [max_eq_left hw, min_eq_right hw2]
      rw [abs_of_nonneg (by linarith), abs_of_nonneg (by linarith)]
      linarith

/-- C5 amended: the per-cycle change of the limited command is bounded by
`max_acceleration * dt` provided acceleration limiting is enabled with
`-max_acceleration ≤ min_acceleration ≤ max_acceleration`, and — when
velocity limiting is enabled — the history value `last` lies within the
configured velocity bounds. -/
theorem speedLimiter_acceleration_bound (l : SpeedLimiter) (v v0 v1 dt : ℝ)
    (hdt : 0 < dt)
    (hacc : l.has_acceleration_limits = true)
    (hmm : l.min_acceleration ≤ l.max_acceleration)
    (hsym : -l.max_acceleration ≤ l.min_acceleration)
    (hv0 : l.has_velocity_limits = true → l.min_velocity ≤ v0 ∧ v0 ≤ l.max_velocity) :
    |l.limit v v0 v1 dt - v0| ≤ l.max_acceleration * dt := by
  have hlohi : l.min_acceleration * dt ≤ l.max_acceleration * dt :=
    mul_le_mul_of_nonneg_right hmm (le_of_lt hdt)
  have hsymdt : -(l.max_acceleration * dt) ≤ l.min_acceleration * dt := by
    have h := mul_le_mul_of_nonneg_right hsym (le_of_lt hdt)
    rw [neg_mul] at h
    exact h
  have hwb : |l.limit_acceleration (l.limit_jerk v v0 v1 dt) v0 dt - v0|
      ≤ l.max_acceleration * dt := by
    unfold SpeedLimiter.limit_acceleration
    rw [if_pos hacc]
    have hub : clampVal (l.limit_jerk v v0 v1 dt - v0) (l.min_acceleration * dt)
        (l.max_acceleration * dt) ≤ l.max_acceleration * dt := min_le_right _ _
    have hlb : l.min_acceleration * dt
        ≤ clampVal (l.limit_jerk v v0 v1 dt - v0) (l.min_acceleration * dt)
          (l.max_acceleration * dt) := le_min (le_max_right _ _) hlohi
    rw [abs_le]
    constructor
    · linarith
    · linarith
  unfold SpeedLimiter.limit SpeedLimiter.limit_velocity
  by_cases hv : l.has_velocity_limits = true
  · rw [if_pos hv]
    obtain ⟨ha1, ha2⟩ := hv0 hv
    calc |clampVal (l.limit_acceleration (l.limit_jerk v v0 v1 dt) v0 dt)
            l.min_velocity l.max_velocity - v0|
        ≤ |l.limit_acceleration (l.limit_jerk v v0 v1 dt) v0 dt - v0| :=
          clamp_toward_interior l.min_velocity l.max_velocity v0 _ ha1 ha2
      _ ≤ l.max_acceleration * dt := hwb
  · rw [if_neg hv]
    exact hwb

/-- Witness for the amended C5 on the concrete limiter with velocity
bounds `[-5, 5]` and acceleration bounds `[-2, 2]`, at `v = 10`,
`last = 0`, `last2 = 0`, `dt = 1`. -/
theorem speedLimiter_acceleration_bound_witness :
    ((0 : ℝ) < 1 ∧
      boundedLimiter.has_acceleration_limits = true ∧
      boundedLimiter.min_acceleration ≤ boundedLimiter.max_acceleration ∧
      -boundedLimiter.max_acceleration ≤ boundedLimiter.min_acceleration ∧
      (boundedLimiter.has_velocity_limits = true →
        boundedLimiter.min_velocity ≤ (0 : ℝ) ∧ (0 : ℝ) ≤ boundedLimiter.max_velocity)) ∧
    |boundedLimiter.limit 10 0 0 1 - 0| ≤ boundedLimiter.max_acceleration * 1 := by
  have h1 : (0 : ℝ) < 1 := by norm_num
  have h2 : boundedLimiter.has_acceleration_limits = true := rfl
  have h3 : boundedLimiter.min_acceleration ≤ boundedLimiter.max_acceleration := by
    norm_num [boundedLimiter]
  have h4 : -boundedLimiter.max_acceleration ≤ boundedLimiter.min_acceleration := by
    norm_num [boundedLimiter]
  have h5 : boundedLimiter.has_velocity_limits = true →
      boundedLimiter.min_velocity ≤ (0 : ℝ) ∧ (0 : ℝ) ≤ boundedLimiter.max_velocity := by
    intro _
    norm_num [boundedLimiter]
  exact ⟨⟨h1, h2, h3, h4, h5⟩,
    speedLimiter_acceleration_bound boundedLimiter 10 0 0 1 h1 h2 h3 h4 h5⟩

end

end SwerveController
